import Mathlib

/-!
Shallow embedding of `allineamento_geopackage_def.py` (GeoPackage updater,
QGIS processing algorithm) and verification of its specification claims.

Python strings are modelled as Lean `String`s, with `str.strip()` and
`str.upper()` re-implemented over the character list (`pyStrip`, `pyUpper`)
so that their behaviour is transparent to proofs.  Attribute values are
modelled by the inductive `Value`; QGIS features by `Feature`; the layer
(together with its edit-session buffer, persisted rows and on-disk backups)
by `LayerSt`.  Host/storage behaviour that the script only observes
(`os.path.exists`, `shutil.copy2` success, `startEditing`, `addFeature`,
`commitChanges`, `commitErrors`) is supplied by an oracle `UpdateEnv`.
-/

namespace GeoPkg

/-- The single-quote character (codepoint 39). -/
def squote : Char := Char.ofNat 39

/-- The double-quote character (codepoint 34). -/
def dquote : Char := Char.ofNat 34

/-- Model of Python `str.strip()` on a character list: drop whitespace from
both ends. -/
def stripChars (cs : List Char) : List Char :=
  ((cs.dropWhile Char.isWhitespace).reverse.dropWhile Char.isWhitespace).reverse

/-- Model of Python `str.strip()`. -/
def pyStrip (s : String) : String :=
  String.mk (stripChars s.data)

/-- Model of Python `str.upper()` (ASCII-adequate). -/
def pyUpper (s : String) : String :=
  String.mk (s.data.map Char.toUpper)

/-- Model of Python `suffix in s` restricted to `s.endswith(suffix)` as used
by the script. -/
def pyEndsWith (s suffix : String) : Bool :=
  suffix.data.isSuffixOf s.data

/-- Prefix of a character list up to (excluding) the first `|`, modelling
`source.split('|')[0]`. -/
def splitPipe : List Char → List Char
  | [] => []
  | c :: rest => if c = '|' then [] else c :: splitPipe rest

/-- `file_path` extraction from a QGIS layer source string
(`source.split('|')[0] if '|' in source else source`). -/
def extractFilePath (source : String) : String :=
  if source.data.contains '|' then String.mk (splitPipe source.data) else source

/-- Attribute values as seen by the script: Python `None`, `str`, numbers
(`int`/`float`, which `normalize_value` passes through unchanged, modelled
by an integer), and any other type, represented by its `str()` rendering. -/
inductive Value where
  | none
  | str (s : String)
  | intV (n : Int)
  | other (repr : String)
deriving DecidableEq, Repr

/-- Python `str(value)` for the value model. -/
def pyStr : Value → String
  | Value.none => "None"
  | Value.str s => s
  | Value.intV n => toString n
  | Value.other r => r

/-- `normalize_value` (lines 259-284): `None` passes through; a `str` is
checked *raw* against `''` and `'NULL'` (case-insensitively) and otherwise
returned stripped; numbers pass through; any other type is converted to
text, stripped, and then checked. -/
def normalize_value : Value → Value
  | Value.none => Value.none
  | Value.str v =>
      if v = "" ∨ pyUpper v = "NULL" then Value.none else Value.str (pyStrip v)
  | Value.intV n => Value.intV n
  | Value.other r =>
      let str_value := pyStrip r
      if str_value = "" ∨ pyUpper str_value = "NULL" then Value.none
      else Value.str str_value

/-- Geometry model: an identity (standing for the shape, so that exact
spatial equality is identity of `gid`) plus its GEOS validity flag. -/
structure Geom where
  gid : Nat
  geosValid : Bool
deriving DecidableEq, Repr

/-- `QgsGeometry.equals` (exact spatial equality). -/
def Geom.equals (a b : Geom) : Bool := a.gid == b.gid

/-- A QGIS feature: stable id, named attribute values, optional geometry
(`Option.none` models a null geometry, which is falsy in PyQGIS). -/
structure Feature where
  fid : Nat
  attrs : List (String × Value)
  geom : Option Geom
deriving DecidableEq, Repr

/-- The feature's field names, in schema order (`feature.fields().names()`). -/
def Feature.fieldNames (f : Feature) : List String :=
  f.attrs.map Prod.fst

/-- `feature[field_name]` attribute access. -/
def Feature.get (f : Feature) (name : String) : Value :=
  (f.attrs.lookup name).getD Value.none

/-- One entry of a difference list: a per-field difference (rendered by the
script as `field: 'old' → 'new'`) or the geometry-changed marker. -/
inductive Diff where
  | fieldDiff (name : String) (oldV newV : Value)
  | geometryChanged
deriving DecidableEq, Repr

/-- Rendering of a difference entry exactly as the script's strings. -/
def renderDiff : Diff → String
  | Diff.fieldDiff name oldV newV =>
      name ++ ": \x27" ++ pyStr oldV ++ "\x27 → \x27" ++ pyStr newV ++ "\x27"
  | Diff.geometryChanged => "geometry: modificata"

/-- The per-field part of `compare_features` (lines 227-246): for every
field of the shared feature except the key field that also exists in the
user feature, emit a difference when the normalized values differ. -/
def compare_fields (shared_feat user_feat : Feature) (key_field : String) :
    List Diff :=
  shared_feat.fieldNames.filterMap (fun field_name =>
    if field_name = key_field then none
    else if user_feat.fieldNames.contains field_name then
      let shared_value := shared_feat.get field_name
      let user_value := user_feat.get field_name
      if normalize_value shared_value ≠ normalize_value user_value then
        some (Diff.fieldDiff field_name shared_value user_value)
      else none
    else none)

/-- The geometry part of `compare_features` (lines 248-255): emit the
marker when both geometries exist, both are GEOS-valid and they are not
spatially equal. -/
def compare_geoms (shared_feat user_feat : Feature) : List Diff :=
  match shared_feat.geom, user_feat.geom with
  | some shared_geom, some user_geom =>
      if shared_geom.geosValid && user_geom.geosValid &&
          !(Geom.equals shared_geom user_geom) then
        [Diff.geometryChanged]
      else []
  | _, _ => []

/-- `compare_features` (lines 221-257): the field differences followed by
the geometry marker, when any. -/
def compare_features (shared_feat user_feat : Feature) (key_field : String) :
    List Diff :=
  compare_fields shared_feat user_feat key_field ++
    compare_geoms shared_feat user_feat

/-- Python-dict assignment `d[k] = v` on an association list: overwrite in
place if the key exists (keeping its position, as Python dicts do),
otherwise append. -/
def dinsert (d : List (String × Feature)) (k : String) (v : Feature) :
    List (String × Feature) :=
  if d.any (fun p => p.1 == k) then
    d.map (fun p => if p.1 == k then (k, v) else p)
  else d ++ [(k, v)]

/-- Feature indexing (lines 177-186): `d[str(feature[key_field])] = feature`
for every feature, in order; duplicate keys are last-write-wins. -/
def indexFeatures (fs : List Feature) (key_field : String) :
    List (String × Feature) :=
  fs.foldl (fun d f => dinsert d (pyStr (f.get key_field)) f) []

/-- `generate_report` (lines 286-323), with the `datetime.now()` timestamp
supplied as a parameter. -/
def generate_report (new_features : List Feature)
    (modified_features : List (String × Feature × List Diff))
    (key_field ts : String) : String :=
  let header := ["=== RAPPORTO AGGIORNAMENTO GEOPACKAGE ===",
    "Data/Ora: " ++ ts,
    "Campo chiave utilizzato: " ++ key_field, ""]
  let newSec :=
    if new_features ≠ [] then
      ["🆕 NUOVI RECORD DA INSERIRE: " ++ toString new_features.length] ++
      (new_features.take 10).map (fun f =>
        "  - " ++ key_field ++ ": " ++ pyStr (f.get key_field)) ++
      (if new_features.length > 10 then
        ["  ... e altri " ++ toString (new_features.length - 10) ++ " record"]
       else []) ++ [""]
    else []
  let modSec :=
    if modified_features ≠ [] then
      ["✏️ RECORD MODIFICATI: " ++ toString modified_features.length] ++
      (modified_features.take 10).flatMap (fun m =>
        ["  - " ++ key_field ++ ": " ++ m.1] ++
        (m.2.2.take 5).map (fun d => "    " ++ renderDiff d) ++
        (if m.2.2.length > 5 then
          ["    ... e altre " ++ toString (m.2.2.length - 5) ++ " differenze"]
         else []) ++ [""]) ++
      (if modified_features.length > 10 then
        ["  ... e altri " ++ toString (modified_features.length - 10) ++
          " record modificati"]
       else [])
    else []
  let emptySec :=
    if new_features = [] ∧ modified_features = [] then
      ["✅ NESSUNA DIFFERENZA TROVATA", "I layer sono già sincronizzati."]
    else []
  String.intercalate "\n" (header ++ newSec ++ modSec ++ emptySec)

/-- `analyze_differences` (lines 166-219): index both layers by the text of
the key field, classify keys into new (user-only) and modified (common keys
with a non-empty difference list), and render the report. -/
def analyze_differences (shared_data user_data : List Feature)
    (key_field ts : String) :
    List Feature × List (String × Feature × List Diff) × String :=
  let shared_features := indexFeatures shared_data key_field
  let user_features := indexFeatures user_data key_field
  let new_features :=
    (user_features.filter (fun p => (shared_features.lookup p.1).isNone)).map
      Prod.snd
  let modified_features := user_features.filterMap (fun p =>
    match shared_features.lookup p.1 with
    | some shared_feat =>
        let differences := compare_features shared_feat p.2 key_field
        if differences.isEmpty then none else some (p.1, p.2, differences)
    | none => none)
  let report := generate_report new_features modified_features key_field ts
  (new_features, modified_features, report)

/-- The filter expression the script builds for key re-resolution
(line 387): `f'"{key_field}" = \'{key_value}\''`, i.e. the raw key text
interpolated between single quotes with no escaping. -/
def buildFilterExpression (key_field key_value : String) : String :=
  "\"" ++ key_field ++ "\" = " ++ String.mk [squote] ++ key_value ++
    String.mk [squote]

/-- Modelled from the spec: the host's query-by-filter-expression operation
(§6, an opaque collaborator not in this repository).  A single-quoted string
literal runs to the next single quote; a literal quote inside it must be
written as a doubled quote (standard SQL-style escaping, as in the QGIS
expression language).  Parses the literal after its opening quote, returning
the unescaped text and the input remaining after the closing quote. -/
def parseLit : List Char → Option (List Char × List Char)
  | [] => none
  | [c] => if c = squote then some ([], []) else none
  | c :: c2 :: rest =>
    if c = squote then
      if c2 = squote then
        match parseLit rest with
        | some (s, r) => some (squote :: s, r)
        | none => none
      else some ([], c2 :: rest)
    else
      match parseLit (c2 :: rest) with
      | some (s, r) => some (c :: s, r)
      | none => none

/-- SQL-style escaping of a string literal: every single quote is doubled. -/
def escapeLit : List Char → List Char
  | [] => []
  | c :: rest =>
      if c = squote then squote :: squote :: escapeLit rest
      else c :: escapeLit rest

/-- Modelled from the spec: parse a double-quoted field name (after its
opening quote), returning the name and the remaining input. -/
def parseField : List Char → Option (List Char × List Char)
  | [] => none
  | c :: rest =>
    if c = dquote then some ([], rest)
    else
      match parseField rest with
      | some (f, r) => some (c :: f, r)
      | none => none

/-- Modelled from the spec: parser for filter expressions of the shape
`"field" = 'literal'` (the only shape the script builds).  Anything not of
this exact shape is an invalid expression. -/
def parseExpr (e : String) : Option (String × String) :=
  match e.data with
  | c :: rest =>
    if c = dquote then
      match parseField rest with
      | some (f, rest1) =>
        match rest1 with
        | ' ' :: '=' :: ' ' :: q :: rest2 =>
          if q = squote then
            match parseLit rest2 with
            | some (lit, []) => some (String.mk f, String.mk lit)
            | _ => none
          else none
        | _ => none
      | none => none
    else none
  | [] => none

/-- Modelled from the spec: evaluation of a filter expression against a
feature — an exact-text comparison of the named field's value with the
parsed literal; an invalid expression matches nothing (`Option.none`). -/
def evalFilter (e : String) (feat : Feature) : Option Bool :=
  match parseExpr e with
  | some (f, lit) => some (pyStr (Feature.get feat f) == lit)
  | none => none

/-- The shared layer as the update executor sees it: schema (field names),
persisted rows, the edit-session buffer (`Option.none` when not editing),
and the backup files created so far (path paired with the copied content,
represented by the rows persisted at copy time). -/
structure LayerSt where
  fields : List String
  data : List Feature
  session : Option (List Feature)
  backups : List (String × List Feature)
deriving DecidableEq, Repr

/-- Oracle for everything the update executor observes from the host and
the storage layer. -/
structure UpdateEnv where
  /-- `shared_layer.source()`. -/
  source : String
  /-- `os.path.exists(file_path)`. -/
  fileExists : Bool
  /-- Outcome of `shutil.copy2` (raises on error). -/
  copyOutcome : Except String Unit
  /-- Whether the pre-run baseline `commitChanges()` succeeds. -/
  baselineCommitOk : Bool
  /-- Whether `startEditing()` succeeds. -/
  startEditingOk : Bool
  /-- Outcome of the i-th `addFeature` call: raises, or returns a Bool. -/
  addOutcome : Nat → Except String Bool
  /-- Whether the final `commitChanges()` succeeds. -/
  commitOk : Bool
  /-- `commitErrors()` reported by the storage layer. -/
  commitErrors : List String
  /-- `datetime.now().strftime(...)` for this run. -/
  timestamp : String

/-- `shutil.copy2(file_path, backup_path)`: record a verbatim copy of the
currently persisted rows under the backup path. -/
def backupSt (st : LayerSt) (backup_path : String) : LayerSt :=
  { st with backups := st.backups ++ [(backup_path, st.data)] }

/-- `commitChanges()`: on success persist the session buffer and leave edit
mode; on failure (or when not editing) change nothing. -/
def commitChangesSt (ok : Bool) (st : LayerSt) : Bool × LayerSt :=
  match st.session with
  | some ws =>
      if ok then (true, { st with data := ws, session := none })
      else (false, st)
  | none => (false, st)

/-- `startEditing()`: on success open a session whose buffer starts as the
persisted rows (keeping an already-open session's buffer). -/
def startEditingSt (ok : Bool) (st : LayerSt) : Bool × LayerSt :=
  if ok then (true, { st with session := some (st.session.getD st.data) })
  else (false, st)

/-- `rollBack()`: discard the session buffer. -/
def rollBackSt (st : LayerSt) : LayerSt :=
  { st with session := none }

/-- A fresh feature id for an added feature. -/
def freshId (ws : List Feature) : Nat :=
  ws.foldl (fun m f => max m f.fid) 0 + 1

/-- `addFeature` (successful case): append to the session buffer with a
fresh id. -/
def addFeatureSt (st : LayerSt) (f : Feature) : LayerSt :=
  match st.session with
  | some ws =>
      { st with session := some (ws ++ [{ f with fid := freshId ws }]) }
  | none => st

/-- Construction of the feature added for a new record (lines 359-370):
`QgsFeature(shared_layer.fields())` initialised to nulls, then every field
present in both schemas copied, then the geometry copied if present. -/
def buildNewFeat (fields : List String) (feature : Feature) : Feature :=
  { fid := 0
    attrs := fields.map (fun fn =>
      (fn, if feature.fieldNames.contains fn then feature.get fn
           else Value.none))
    geom := feature.geom }

/-- The addition loop (lines 354-376): per feature, build the compatible
feature and call `addFeature`; a `false` return is only logged; a raise
aborts the inner `try`.  `i` is the index of the next `addFeature` call in
the oracle. -/
def applyAdds (env : UpdateEnv) : Nat → List Feature → LayerSt →
    Except String Unit × LayerSt
  | _, [], st => (Except.ok (), st)
  | i, f :: rest, st =>
    match env.addOutcome i with
    | Except.error e => (Except.error e, st)
    | Except.ok ok =>
        let new_feat := buildNewFeat st.fields f
        let st' := if ok then addFeatureSt st new_feat else st
        applyAdds env (i + 1) rest st'

/-- `changeAttributeValue(fid, i, value)` on the session buffer, with the
field addressed by its name (the script derives `i` by enumerating the
layer's fields). -/
def changeAttr (ws : List Feature) (fid : Nat) (name : String) (v : Value) :
    List Feature :=
  ws.map (fun f =>
    if f.fid = fid then
      { f with attrs := f.attrs.map (fun p =>
          if p.1 = name then (name, v) else p) }
    else f)

/-- `changeGeometry(fid, geometry)` on the session buffer. -/
def changeGeom (ws : List Feature) (fid : Nat) (g : Option Geom) :
    List Feature :=
  ws.map (fun f => if f.fid = fid then { f with geom := g } else f)

/-- One iteration of the modification loop (lines 382-406): build the key
filter expression, query the current buffer, and if a feature is found,
update every shared field except the key and the geometry when the user
record carries one; otherwise silently skip. -/
def applyOneMod (fields : List String) (key_field : String)
    (entry : String × Feature × List Diff) (ws : List Feature) :
    List Feature :=
  let key_value := entry.1
  let new_feature := entry.2.1
  let expr := buildFilterExpression key_field key_value
  match ws.filter (fun f => (evalFilter expr f).getD false) with
  | [] => ws
  | existing_feat :: _ =>
      let fid := existing_feat.fid
      let ws1 := fields.foldl (fun acc field_name =>
        if field_name = key_field then acc
        else if new_feature.fieldNames.contains field_name then
          changeAttr acc fid field_name (new_feature.get field_name)
        else acc) ws
      if new_feature.geom.isSome then changeGeom ws1 fid new_feature.geom
      else ws1

/-- The modification loop over all modified entries, acting on the session
buffer (it raises nothing). -/
def applyModsSt (key_field : String)
    (mods : List (String × Feature × List Diff)) (st : LayerSt) : LayerSt :=
  match st.session with
  | some ws =>
      { st with
        session := some (mods.foldl
          (fun acc e => applyOneMod st.fields key_field e acc) ws) }
  | none => st

/-- The body of the inner `try` (lines 353-425): additions, modifications,
the success report lines, and the final commit with its error/rollback
branch.  `Except.error` models an exception escaping to the inner handler. -/
def updApplyPhase (env : UpdateEnv) (new_features : List Feature)
    (modified_features : List (String × Feature × List Diff))
    (key_field : String) (st : LayerSt) : Except String String × LayerSt :=
  match applyAdds env 0 new_features st with
  | (Except.error e, st1) => (Except.error e, st1)
  | (Except.ok _, st1) =>
    let st2 :=
      if modified_features ≠ [] then applyModsSt key_field modified_features st1
      else st1
    let report_lines :=
      (if new_features ≠ [] then
        ["✅ Aggiunti " ++ toString new_features.length ++ " nuovi record"]
       else []) ++
      (if modified_features ≠ [] then
        ["✅ Aggiornati " ++ toString modified_features.length ++ " record"]
       else [])
    match commitChangesSt env.commitOk st2 with
    | (true, st3) =>
        (Except.ok (String.intercalate "\n"
          (report_lines ++ ["🎉 AGGIORNAMENTO COMPLETATO CON SUCCESSO!"])),
         st3)
    | (false, st3) =>
        (Except.ok ("❌ Errori durante il salvataggio: " ++
          String.intercalate "; " env.commitErrors),
         rollBackSt st3)

/-- `startEditing` with its failure report (lines 347-349), then the inner
`try`/`except` (lines 353-430) whose handler rolls back and returns the
error as text. -/
def update_edit_phase (env : UpdateEnv) (new_features : List Feature)
    (modified_features : List (String × Feature × List Diff))
    (key_field : String) (st2 : LayerSt) : Except String String × LayerSt :=
  match startEditingSt env.startEditingOk st2 with
  | (false, st3) =>
      (Except.ok "❌ Impossibile iniziare editing del layer", st3)
  | (true, st3) =>
    match updApplyPhase env new_features modified_features key_field st3 with
    | (Except.ok r, st4) => (Except.ok r, st4)
    | (Except.error e, st4) =>
        (Except.ok ("❌ Errore durante l\x27aggiornamento: " ++ e),
         rollBackSt st4)

/-- Steps after the backup (lines 342-430): the baseline commit when the
layer is already mid-edit, then the edit phase. -/
def update_after_backup (env : UpdateEnv) (new_features : List Feature)
    (modified_features : List (String × Feature × List Diff))
    (key_field : String) (st1 : LayerSt) : Except String String × LayerSt :=
  update_edit_phase env new_features modified_features key_field
    (if st1.session.isSome then (commitChangesSt env.baselineCommitOk st1).2
     else st1)

/-- The body of the outer `try` (lines 329-430): backup when the source is
an existing `.gpkg` file (a failed copy raises to the outer handler), then
the post-backup phase. -/
def update_body (env : UpdateEnv) (new_features : List Feature)
    (modified_features : List (String × Feature × List Diff))
    (key_field : String) (st : LayerSt) : Except String String × LayerSt :=
  let file_path := extractFilePath env.source
  if env.fileExists && pyEndsWith file_path ".gpkg" then
    match env.copyOutcome with
    | Except.ok _ =>
        update_after_backup env new_features modified_features key_field
          (backupSt st (file_path ++ ".backup_" ++ env.timestamp))
    | Except.error e => (Except.error e, st)
  else update_after_backup env new_features modified_features key_field st

/-- `update_with_qgis_api_only` (lines 325-433): the outer `except` converts
any escaped fault into the general failure report, so the caller always
receives text. -/
def update_with_qgis_api_only (env : UpdateEnv) (new_features : List Feature)
    (modified_features : List (String × Feature × List Diff))
    (key_field : String) (st : LayerSt) : Except String String × LayerSt :=
  match update_body env new_features modified_features key_field st with
  | (Except.ok r, st2) => (Except.ok r, st2)
  | (Except.error e, st2) => (Except.ok ("❌ Errore generale: " ++ e), st2)

/-- `processAlgorithm` (lines 121-164): parameter validation (raising
`QgsProcessingException`, modelled as `Except.error`), analysis, and the
conditional update whose report is appended to the analysis report. -/
def processAlgorithm (env : UpdateEnv) (shared_layer user_layer : Option LayerSt)
    (key_field : String) (preview_only : Bool) :
    Except String (String × LayerSt) :=
  match shared_layer, user_layer with
  | some shared, some user =>
    if ¬ (key_field ∈ shared.fields) then
      Except.error ("Campo chiave \"" ++ key_field ++
        "\" non trovato nel layer condiviso")
    else if ¬ (key_field ∈ user.fields) then
      Except.error ("Campo chiave \"" ++ key_field ++
        "\" non trovato nel layer utente")
    else
      let res := analyze_differences shared.data user.data key_field
        env.timestamp
      let new_features := res.1
      let modified_features := res.2.1
      let report := res.2.2
      if ¬ preview_only ∧ (new_features ≠ [] ∨ modified_features ≠ []) then
        match update_with_qgis_api_only env new_features modified_features
            key_field shared with
        | (Except.ok update_report, st') =>
            Except.ok (report ++ "\n" ++ update_report, st')
        | (Except.error e, _) => Except.error e
      else Except.ok (report, shared)
  | _, _ => Except.error "Layer non validi"

/-! ### Lemmas about the string primitives -/

lemma stripChars_eq_rdropWhile (cs : List Char) :
    stripChars cs =
      List.rdropWhile Char.isWhitespace (cs.dropWhile Char.isWhitespace) := rfl

lemma stripChars_idem (cs : List Char) :
    stripChars (stripChars cs) = stripChars cs := by
  have key : ∀ m : List Char,
      (∀ hl : 0 < m.length, ¬ Char.isWhitespace (m.get ⟨0, hl⟩)) →
      List.rdropWhile Char.isWhitespace
          (List.dropWhile Char.isWhitespace
            (List.rdropWhile Char.isWhitespace m)) =
        List.rdropWhile Char.isWhitespace m := by
    intro m hhead
    have h1 : List.dropWhile Char.isWhitespace
        (List.rdropWhile Char.isWhitespace m) =
        List.rdropWhile Char.isWhitespace m := by
      rw [List.dropWhile_eq_self_iff]
      intro hl
      have hpre : List.rdropWhile Char.isWhitespace m <+: m :=
        List.rdropWhile_prefix _ m
      have hml : 0 < m.length := lt_of_lt_of_le hl hpre.length_le
      have hg := hpre.getElem hl
      have h0 := hhead hml
      simpa [List.get_eq_getElem, hg] using h0
    rw [h1, List.rdropWhile_idempotent]
  rw [stripChars_eq_rdropWhile, stripChars_eq_rdropWhile]
  exact key _
    (fun hl => List.dropWhile_get_zero_not Char.isWhitespace cs hl)

lemma pyStrip_idem (s : String) : pyStrip (pyStrip s) = pyStrip s := by
  simp [pyStrip, stripChars_idem]

/-! ### The Value Normalizer (claims C2, C3) -/

lemma normalize_value_str (s : String) :
    normalize_value (Value.str s) =
      if s = "" ∨ pyUpper s = "NULL" then Value.none
      else Value.str (pyStrip s) := rfl

lemma normalize_value_other (r : String) :
    normalize_value (Value.other r) =
      if pyStrip r = "" ∨ pyUpper (pyStrip r) = "NULL" then Value.none
      else Value.str (pyStrip r) := rfl

/-- C2 counterexample: `normalize_value` checks the *raw* text against `''`
and `'NULL'` before stripping, so a whitespace-only string normalizes to the
empty string (not null) and `" NULL "` normalizes to `"NULL"` (not null),
contradicting the claim that both are null. -/
theorem normalize_value_trim_first_counterexample :
    normalize_value (Value.str " ") = Value.str "" ∧
    normalize_value (Value.str " NULL ") = Value.str "NULL" ∧
    Value.str "" ≠ Value.none ∧ Value.str "NULL" ≠ Value.none := by
  refine ⟨by decide, by decide, by decide, by decide⟩

/-- C2 amended: for text input the raw (untrimmed) text is tested first —
`normalize` of a text value is null iff the raw text is empty or equals
`"NULL"` case-insensitively; otherwise the trimmed text is returned. -/
theorem normalize_value_text_amended (s : String) :
    (normalize_value (Value.str s) = Value.none ↔
      s = "" ∨ pyUpper s = "NULL") ∧
    (s ≠ "" → pyUpper s ≠ "NULL" →
      normalize_value (Value.str s) = Value.str (pyStrip s)) := by
  constructor
  · rw [normalize_value_str]
    by_cases h : s = "" ∨ pyUpper s = "NULL"
    · simp [h]
    · simp [if_neg h, h]
  · intro h1 h2
    rw [normalize_value_str, if_neg (by simp [h1, h2])]

/-- Witness for the amended C2 at a concrete input. -/
theorem normalize_value_text_amended_witness :
    normalize_value (Value.str " abc ") = Value.str (pyStrip " abc ") :=
  (normalize_value_text_amended " abc ").2 (by decide) (by decide)

/-- C3 counterexample: `normalize` is not idempotent — `" NULL "`
normalizes to `"NULL"`, which normalizes further to null. -/
theorem normalize_value_not_idempotent :
    normalize_value (normalize_value (Value.str " NULL ")) ≠
      normalize_value (Value.str " NULL ") := by
  decide

/-- C3 amended: `normalize (normalize v) = normalize v` for every value
except text inputs that are non-empty and not case-insensitively `"NULL"`
raw, but whose trimmed form is empty or case-insensitively `"NULL"`. -/
theorem normalize_value_idempotent_except (v : Value)
    (h : ∀ s, v = Value.str s → s ≠ "" → pyUpper s ≠ "NULL" →
      pyStrip s ≠ "" ∧ pyUpper (pyStrip s) ≠ "NULL") :
    normalize_value (normalize_value v) = normalize_value v := by
  cases v with
  | none => rfl
  | intV n => rfl
  | str s =>
    rw [normalize_value_str]
    by_cases h1 : s = "" ∨ pyUpper s = "NULL"
    · rw [if_pos h1]; rfl
    · push_neg at h1
      obtain ⟨h3, h4⟩ := h s rfl h1.1 h1.2
      rw [if_neg (by simp [h1.1, h1.2]), normalize_value_str,
        if_neg (by simp [h3, h4]), pyStrip_idem]
  | other r =>
    rw [normalize_value_other]
    by_cases h1 : pyStrip r = "" ∨ pyUpper (pyStrip r) = "NULL"
    · rw [if_pos h1]; rfl
    · push_neg at h1
      rw [if_neg (by simp [h1.1, h1.2]), normalize_value_str,
        if_neg (by simp [h1.1, h1.2]), pyStrip_idem]

/-- Witness for the amended C3 at a concrete input. -/
theorem normalize_value_idempotent_except_witness :
    normalize_value (normalize_value (Value.intV 5)) =
      normalize_value (Value.intV 5) :=
  normalize_value_idempotent_except (Value.intV 5)
    (by intro s hs; simp at hs)

/-! ### Lemmas about the feature index -/

lemma keys_dinsert (d : List (String × Feature)) (k : String) (v : Feature) :
    (dinsert d k v).map Prod.fst =
      if d.any (fun p => p.1 == k) then d.map Prod.fst
      else d.map Prod.fst ++ [k] := by
  unfold dinsert
  split
  · rw [List.map_map]
    apply List.map_congr_left
    intro p hp
    by_cases h : p.1 = k
    · simp [h]
    · simp [h]
  · simp

lemma nodup_keys_dinsert (d : List (String × Feature)) (k : String)
    (v : Feature) (h : (d.map Prod.fst).Nodup) :
    ((dinsert d k v).map Prod.fst).Nodup := by
  rw [keys_dinsert]
  split
  · exact h
  · rename_i hany
    have hk : k ∉ d.map Prod.fst := by
      intro hmem
      rcases List.mem_map.1 hmem with ⟨p, hp, hpk⟩
      exact hany (List.any_eq_true.2 ⟨p, hp, by simp [hpk]⟩)
    rw [List.nodup_append]
    refine ⟨h, List.nodup_singleton k, ?_⟩
    intro a ha hak
    rw [List.mem_singleton] at hak
    subst hak
    exact hk ha

lemma nodup_keys_indexFeatures (fs : List Feature) (key_field : String) :
    ((indexFeatures fs key_field).map Prod.fst).Nodup := by
  suffices h : ∀ d : List (String × Feature), (d.map Prod.fst).Nodup →
      ((fs.foldl (fun d f => dinsert d (pyStr (f.get key_field)) f) d).map
        Prod.fst).Nodup by
    exact h [] (by simp)
  induction fs with
  | nil => intro d hd; simpa using hd
  | cons f rest ih =>
    intro d hd
    exact ih _ (nodup_keys_dinsert _ _ _ hd)

lemma lookup_cons_eqk (k : String) (b : Feature)
    (rest : List (String × Feature)) :
    ((k, b) :: rest).lookup k = some b := by
  simp [List.lookup]

lemma lookup_cons_nek {k a : String} (b : Feature)
    (rest : List (String × Feature)) (h : k ≠ a) :
    ((a, b) :: rest).lookup k = rest.lookup k := by
  have hb : (k == a) = false := beq_eq_false_iff_ne.mpr h
  simp [List.lookup, hb]

lemma mem_iff_lookup {d : List (String × Feature)}
    (h : (d.map Prod.fst).Nodup) (k : String) (v : Feature) :
    (k, v) ∈ d ↔ d.lookup k = some v := by
  induction d with
  | nil => simp
  | cons p rest ih =>
    obtain ⟨a, b⟩ := p
    simp only [List.map_cons, List.nodup_cons] at h
    by_cases hk : k = a
    · subst hk
      rw [lookup_cons_eqk]
      constructor
      · intro hmem
        rcases List.mem_cons.1 hmem with heq | hmem2
        · have hvb : v = b := by simpa using congrArg Prod.snd heq
          rw [hvb]
        · exact absurd (List.mem_map.2 ⟨(k, v), hmem2, rfl⟩) h.1
      · intro hsome
        have hvb : v = b := (Option.some.inj hsome).symm
        rw [hvb]
        exact List.mem_cons_self _ _
    · rw [lookup_cons_nek _ _ hk]
      rw [← ih h.2]
      simp [hk]

/-! ### The Classifier (claim C1) -/

lemma analyze_new_eq (shared_data user_data : List Feature)
    (key_field ts : String) :
    (analyze_differences shared_data user_data key_field ts).1 =
      ((indexFeatures user_data key_field).filter
        (fun p => ((indexFeatures shared_data key_field).lookup p.1).isNone)).map
        Prod.snd := rfl

lemma analyze_mod_eq (shared_data user_data : List Feature)
    (key_field ts : String) :
    (analyze_differences shared_data user_data key_field ts).2.1 =
      (indexFeatures user_data key_field).filterMap (fun p =>
        match (indexFeatures shared_data key_field).lookup p.1 with
        | some shared_feat =>
            let differences := compare_features shared_feat p.2 key_field
            if differences.isEmpty then none
            else some (p.1, p.2, differences)
        | none => none) := rfl

/-- C1: classification is exactly as specified — `new` consists precisely
of the user-index records whose key is absent from the shared index,
`modified` consists precisely of the `(key, user_record, differences)`
entries for keys in both indices with a non-empty difference list, and a
key absent from the user index (in particular a shared-only key) never
appears in the modified output. -/
theorem analyze_differences_classification (shared_data user_data : List Feature)
    (key_field ts : String) :
    (∀ f, f ∈ (analyze_differences shared_data user_data key_field ts).1 ↔
      ∃ k, (indexFeatures user_data key_field).lookup k = some f ∧
        (indexFeatures shared_data key_field).lookup k = none) ∧
    (∀ k uf d,
      (k, uf, d) ∈ (analyze_differences shared_data user_data key_field ts).2.1 ↔
        ((indexFeatures user_data key_field).lookup k = some uf ∧
         ∃ sf, (indexFeatures shared_data key_field).lookup k = some sf ∧
           compare_features sf uf key_field = d ∧ d ≠ [])) ∧
    (∀ k, (indexFeatures user_data key_field).lookup k = none →
      ∀ uf d,
        (k, uf, d) ∉ (analyze_differences shared_data user_data key_field ts).2.1) := by
  have hnodU := nodup_keys_indexFeatures user_data key_field
  have hmod : ∀ k uf d,
      (k, uf, d) ∈ (analyze_differences shared_data user_data key_field ts).2.1 ↔
        ((indexFeatures user_data key_field).lookup k = some uf ∧
         ∃ sf, (indexFeatures shared_data key_field).lookup k = some sf ∧
           compare_features sf uf key_field = d ∧ d ≠ []) := by
    intro k uf d
    rw [analyze_mod_eq, List.mem_filterMap]
    constructor
    · rintro ⟨⟨pk, pf⟩, hp, hsome⟩
      cases hsl : (indexFeatures shared_data key_field).lookup pk with
      | none =>
        simp only [hsl] at hsome
        exact Option.noConfusion hsome
      | some sf =>
        simp only [hsl] at hsome
        split at hsome
        · cases hsome
        · rename_i hne
          have hinj := Option.some.inj hsome
          simp only [Prod.mk.injEq] at hinj
          obtain ⟨rfl, rfl, hcmp⟩ := hinj
          refine ⟨(mem_iff_lookup hnodU pk pf).1 hp, sf, hsl, hcmp, ?_⟩
          rw [← hcmp]
          simpa [List.isEmpty_iff] using hne
    · rintro ⟨hlu, sf, hls, hcmp, hne⟩
      refine ⟨(k, uf), (mem_iff_lookup hnodU k uf).2 hlu, ?_⟩
      simp only [hls]
      rw [hcmp, if_neg (by simpa [List.isEmpty_iff] using hne)]
  have hnew : ∀ f,
      f ∈ (analyze_differences shared_data user_data key_field ts).1 ↔
        ∃ k, (indexFeatures user_data key_field).lookup k = some f ∧
          (indexFeatures shared_data key_field).lookup k = none := by
    intro f
    rw [analyze_new_eq]
    simp only [List.mem_map, List.mem_filter, Option.isNone_iff_eq_none]
    constructor
    · rintro ⟨⟨pk, pf⟩, ⟨hp, hnone⟩, rfl⟩
      exact ⟨pk, (mem_iff_lookup hnodU pk pf).1 hp, hnone⟩
    · rintro ⟨k, hlk, hnone⟩
      exact ⟨(k, f), ⟨(mem_iff_lookup hnodU k f).2 hlk, hnone⟩, rfl⟩
  refine ⟨hnew, hmod, ?_⟩
  intro k hnone uf d hmem
  rcases (hmod k uf d).1 hmem with ⟨hlk, _⟩
  rw [hnone] at hlk
  cases hlk

/-- Features used by concrete witnesses. -/
def featA : Feature :=
  ⟨1, [("fuuid", Value.str "A"), ("name", Value.str "Park")], Option.none⟩

/-- Features used by concrete witnesses. -/
def featB : Feature :=
  ⟨2, [("fuuid", Value.str "B"), ("name", Value.str "Lake")], Option.none⟩

/-- Witness for C1 at a concrete input: a user-only key is classified as
new. -/
theorem analyze_differences_classification_witness :
    featB ∈ (analyze_differences [featA] [featB] "fuuid" "TS").1 :=
  ((analyze_differences_classification [featA] [featB] "fuuid" "TS").1
    featB).2 ⟨"B", by decide, by decide⟩

/-! ### The Difference Engine geometry rule (claim C7) -/

lemma mem_compare_fields (s u : Feature) (key_field : String) (x : Diff)
    (hx : x ∈ compare_fields s u key_field) :
    ∃ n o v, x = Diff.fieldDiff n o v := by
  rcases List.mem_filterMap.1 hx with ⟨fn, hfn, hsome⟩
  split at hsome
  · exact Option.noConfusion hsome
  · split at hsome
    · dsimp only at hsome
      split at hsome
      · exact ⟨fn, _, _, (Option.some.inj hsome).symm⟩
      · exact Option.noConfusion hsome
    · exact Option.noConfusion hsome

lemma geometryChanged_mem_compare_geoms (s u : Feature) :
    Diff.geometryChanged ∈ compare_geoms s u ↔
      ∃ sg ug, s.geom = some sg ∧ u.geom = some ug ∧
        sg.geosValid = true ∧ ug.geosValid = true ∧
        Geom.equals sg ug = false := by
  cases hs : s.geom with
  | none => simp [compare_geoms, hs]
  | some sg =>
    cases hu : u.geom with
    | none => simp [compare_geoms, hs, hu]
    | some ug =>
      simp only [compare_geoms, hs, hu, Option.some.injEq]
      by_cases hc : (sg.geosValid && ug.geosValid && !(Geom.equals sg ug)) = true
      · rw [if_pos hc]
        simp only [Bool.and_eq_true, Bool.not_eq_true'] at hc
        simp [hc.1.1, hc.1.2, hc.2]
      · rw [if_neg hc]
        simp only [Bool.and_eq_true, Bool.not_eq_true'] at hc
        simp only [List.not_mem_nil, false_iff]
        rintro ⟨sg', ug', rfl, rfl, h1, h2, h3⟩
        exact hc ⟨⟨h1, h2⟩, h3⟩

/-- C7: the geometry-changed marker appears in the difference list iff both
records carry a geometry, both geometries are GEOS-valid, and they are not
exactly spatially equal; in every other case no geometry difference is
reported (and `compare_features` is total, so no error is possible). -/
theorem compare_features_geometry_iff (s u : Feature) (key_field : String) :
    Diff.geometryChanged ∈ compare_features s u key_field ↔
      ∃ sg ug, s.geom = some sg ∧ u.geom = some ug ∧
        sg.geosValid = true ∧ ug.geosValid = true ∧
        Geom.equals sg ug = false := by
  rw [compare_features, List.mem_append]
  constructor
  · rintro (hf | hg)
    · rcases mem_compare_fields s u key_field _ hf with ⟨n, o, v, h⟩
      cases h
    · exact (geometryChanged_mem_compare_geoms s u).1 hg
  · intro h
    exact Or.inr ((geometryChanged_mem_compare_geoms s u).2 h)

/-! ### The key re-resolution filter expression (claim C10) -/

lemma escapeLit_cons_squote (rest : List Char) :
    escapeLit (squote :: rest) = squote :: squote :: escapeLit rest := by
  simp [escapeLit]

lemma escapeLit_cons_ne (c : Char) (rest : List Char) (h : c ≠ squote) :
    escapeLit (c :: rest) = c :: escapeLit rest := by
  simp [escapeLit, h]

lemma length_le_escapeLit (k : List Char) :
    k.length ≤ (escapeLit k).length := by
  induction k with
  | nil => simp [escapeLit]
  | cons c k' ih =>
    by_cases hc : c = squote
    · subst hc
      rw [escapeLit_cons_squote]
      simp only [List.length_cons]
      omega
    · rw [escapeLit_cons_ne c k' hc]
      simp only [List.length_cons]
      omega

lemma length_lt_escapeLit (k : List Char) (hk : squote ∈ k) :
    k.length < (escapeLit k).length := by
  induction k with
  | nil => cases hk
  | cons c k' ih =>
    by_cases hc : c = squote
    · subst hc
      rw [escapeLit_cons_squote]
      have := length_le_escapeLit k'
      simp only [List.length_cons]
      omega
    · rcases List.mem_cons.1 hk with h1 | h2
      · exact absurd h1.symm hc
      · rw [escapeLit_cons_ne c k' hc]
        have := ih h2
        simp only [List.length_cons]
        omega

lemma parseLit_sound (l : List Char) : ∀ s r, parseLit l = some (s, r) →
    l = escapeLit s ++ squote :: r := by
  induction l using parseLit.induct with
  | case1 =>
    intro s r hp
    exact Option.noConfusion hp
  | case2 =>
    intro s r hp
    simp [parseLit] at hp
    obtain ⟨h1, h2⟩ := hp
    subst h1
    subst h2
    simp [escapeLit]
  | case3 c hc =>
    intro s r hp
    simp [parseLit, hc] at hp
  | case4 rest s' r' hrec ih =>
    intro s r hp
    simp [parseLit, hrec] at hp
    obtain ⟨h1, h2⟩ := hp
    subst h1
    subst h2
    rw [escapeLit_cons_squote, ih s' r' hrec]
    simp
  | case5 rest hrec ih =>
    intro s r hp
    simp [parseLit, hrec] at hp
  | case6 c2 rest hc2 =>
    intro s r hp
    simp [parseLit, hc2] at hp
    obtain ⟨h1, h2⟩ := hp
    subst h1
    subst h2
    simp [escapeLit]
  | case7 c c2 rest hc s' r' hrec ih =>
    intro s r hp
    simp [parseLit, hc, hrec] at hp
    obtain ⟨h1, h2⟩ := hp
    subst h1
    subst h2
    rw [escapeLit_cons_ne c s' hc, ih s' r' hrec]
    simp
  | case8 c c2 rest hc hrec ih =>
    intro s r hp
    simp [parseLit, hc, hrec] at hp

lemma parseLit_complete (k : List Char) (hk : ∀ c ∈ k, c ≠ squote) :
    parseLit (k ++ [squote]) = some (k, []) := by
  induction k with
  | nil => simp [parseLit]
  | cons c k' ih =>
    have hc : c ≠ squote := hk c (by simp)
    have ih' := ih (fun x hx => hk x (by simp [hx]))
    cases k' with
    | nil => simp [parseLit, hc]
    | cons c2 k'' =>
      rw [List.cons_append] at ih'
      simp [parseLit, hc, ih']

lemma parseField_complete (f : List Char) (hf : ∀ c ∈ f, c ≠ dquote)
    (rest : List Char) :
    parseField (f ++ dquote :: rest) = some (f, rest) := by
  induction f with
  | nil => simp [parseField]
  | cons c f' ih =>
    have hc : c ≠ dquote := hf c (by simp)
    simp [parseField, hc, ih (fun x hx => hf x (by simp [hx]))]

lemma buildFilterExpression_data (field k : String) :
    (buildFilterExpression field k).data =
      dquote :: (field.data ++
        dquote :: ' ' :: '=' :: ' ' :: squote :: (k.data ++ [squote])) := by
  have h1 : ("\"" : String).data = [dquote] := by decide
  have h2 : ("\" = " : String).data = [dquote, ' ', '=', ' '] := by decide
  simp [buildFilterExpression, String.data_append, h1, h2]
  decide

lemma parseExpr_build (field k : String)
    (hf : ∀ c ∈ field.data, c ≠ dquote) :
    parseExpr (buildFilterExpression field k) =
      match parseLit (k.data ++ [squote]) with
      | some (lit, []) => some (field, String.mk lit)
      | _ => none := by
  have hpf := parseField_complete field.data hf
    (' ' :: '=' :: ' ' :: squote :: (k.data ++ [squote]))
  simp only [parseExpr, buildFilterExpression_data, hpf]
  cases hpl : parseLit (k.data ++ [squote]) with
  | none => simp
  | some pr =>
    obtain ⟨lit, r⟩ := pr
    cases r with
    | nil => simp
    | cons a r' => simp

/-- C10: interpolating the raw key text between single quotes yields an
exact-match filter for the key field precisely when the key contains no
single quote; for a key containing a single quote the built expression
does not act as an exact-match filter for that key (its literal either
fails to parse or denotes a different string), so such a record cannot be
correctly re-resolved. -/
theorem buildFilterExpression_exact_match :
    (∀ field k : String, (∀ c ∈ field.data, c ≠ dquote) →
      (∀ c ∈ k.data, c ≠ squote) →
      ∀ feat : Feature,
        evalFilter (buildFilterExpression field k) feat =
          some (pyStr (feat.get field) == k)) ∧
    (∀ field k : String, (∀ c ∈ field.data, c ≠ dquote) →
      squote ∈ k.data →
      ¬ ∀ feat : Feature,
        evalFilter (buildFilterExpression field k) feat =
          some (pyStr (feat.get field) == k)) := by
  constructor
  · intro field k hf hk feat
    have hparse : parseExpr (buildFilterExpression field k) = some (field, k) := by
      rw [parseExpr_build field k hf, parseLit_complete k.data hk]
    simp [evalFilter, hparse]
  · intro field k hf hk hall
    have hget : (Feature.get ⟨0, [(field, Value.str k)], Option.none⟩ field) =
        Value.str k := by
      simp [Feature.get, List.lookup]
    have htrue : evalFilter (buildFilterExpression field k)
        ⟨0, [(field, Value.str k)], Option.none⟩ = some true := by
      rw [hall ⟨0, [(field, Value.str k)], Option.none⟩, hget]
      simp [pyStr]
    have hparse := parseExpr_build field k hf
    cases hpl : parseLit (k.data ++ [squote]) with
    | none =>
      rw [hpl] at hparse
      simp [evalFilter, hparse] at htrue
    | some pr =>
      obtain ⟨lit, r⟩ := pr
      cases r with
      | cons a r' =>
        rw [hpl] at hparse
        simp [evalFilter, hparse] at htrue
      | nil =>
        rw [hpl] at hparse
        simp only [evalFilter, hparse, hget, Option.some.injEq] at htrue
        have hkeq : k = String.mk lit := by
          simpa [pyStr] using htrue
        have hsound := parseLit_sound (k.data ++ [squote]) lit [] hpl
        have hkd : k.data = escapeLit lit := by
          have h := hsound
          rw [show escapeLit lit ++ squote :: [] = escapeLit lit ++ [squote]
            from rfl] at h
          exact List.append_cancel_right h
        have hlit : k.data = lit := by
          simpa using congrArg String.data hkeq
        rw [← hlit] at hkd
        have hlen := length_lt_escapeLit k.data hk
        rw [← hkd] at hlen
        exact absurd hlen (lt_irrefl _)

/-- Witness for C10 at a concrete input: the built filter for a quote-free
key evaluates to exact key equality. -/
theorem buildFilterExpression_exact_match_witness :
    evalFilter (buildFilterExpression "fuuid" "abc") featA =
      some (pyStr (featA.get "fuuid") == "abc") :=
  buildFilterExpression_exact_match.1 "fuuid" "abc" (by decide) (by decide)
    featA

/-! ### Lemmas about the Update Executor (claims C4, C5, C9) -/

/-- The dataset content at the moment this run's edit session begins: the
baseline commit first persists any leftover session buffer. -/
def preEditData (env : UpdateEnv) (st : LayerSt) : List Feature :=
  match st.session with
  | some ws => if env.baselineCommitOk then ws else st.data
  | none => st.data

lemma commitChangesSt_state (ok : Bool) (st : LayerSt) :
    ((commitChangesSt ok st).2).fields = st.fields ∧
    ((commitChangesSt ok st).2).backups = st.backups := by
  cases hs : st.session with
  | none => simp [commitChangesSt, hs]
  | some ws => cases ok <;> simp [commitChangesSt, hs]

lemma commitChangesSt_false (st : LayerSt) :
    commitChangesSt false st = (false, st) := by
  cases hs : st.session <;> simp [commitChangesSt, hs]

lemma applyAdds_state (env : UpdateEnv) (l : List Feature) :
    ∀ (i : Nat) (st : LayerSt),
    (applyAdds env i l st).2.fields = st.fields ∧
    (applyAdds env i l st).2.data = st.data ∧
    (applyAdds env i l st).2.backups = st.backups ∧
    (applyAdds env i l st).2.session.isSome = st.session.isSome := by
  induction l with
  | nil => intro i st; simp [applyAdds]
  | cons f rest ih =>
    intro i st
    simp only [applyAdds]
    cases henv : env.addOutcome i with
    | error e => simp
    | ok b =>
      cases b with
      | false => simpa using ih (i + 1) st
      | true =>
        have h := ih (i + 1) (addFeatureSt st (buildNewFeat st.fields f))
        have hA : (addFeatureSt st (buildNewFeat st.fields f)).fields = st.fields ∧
            (addFeatureSt st (buildNewFeat st.fields f)).data = st.data ∧
            (addFeatureSt st (buildNewFeat st.fields f)).backups = st.backups ∧
            (addFeatureSt st (buildNewFeat st.fields f)).session.isSome =
              st.session.isSome := by
          cases hs : st.session <;> simp [addFeatureSt, hs]
        simp only [if_true]
        exact ⟨by rw [h.1, hA.1], by rw [h.2.1, hA.2.1],
          by rw [h.2.2.1, hA.2.2.1], by rw [h.2.2.2, hA.2.2.2]⟩

lemma applyAdds_ok (env : UpdateEnv) (l : List Feature) :
    ∀ (i : Nat) (st : LayerSt),
    (∀ j, j < l.length → ∃ b, env.addOutcome (i + j) = Except.ok b) →
    (applyAdds env i l st).1 = Except.ok () := by
  induction l with
  | nil => intro i st h; simp [applyAdds]
  | cons f rest ih =>
    intro i st h
    obtain ⟨b, hb⟩ := h 0 (by simp)
    rw [Nat.add_zero] at hb
    have h' : ∀ j, j < rest.length →
        ∃ b, env.addOutcome (i + 1 + j) = Except.ok b := by
      intro j hj
      obtain ⟨b', hb'⟩ := h (j + 1) (by simp; omega)
      exact ⟨b', by rwa [show i + 1 + j = i + (j + 1) from by omega]⟩
    simp only [applyAdds, hb]
    cases b
    · simpa using ih (i + 1) st h'
    · simpa using ih (i + 1) (addFeatureSt st (buildNewFeat st.fields f)) h'

lemma applyModsSt_state (key_field : String)
    (mods : List (String × Feature × List Diff)) (st : LayerSt) :
    (applyModsSt key_field mods st).fields = st.fields ∧
    (applyModsSt key_field mods st).data = st.data ∧
    (applyModsSt key_field mods st).backups = st.backups ∧
    (applyModsSt key_field mods st).session.isSome = st.session.isSome := by
  cases hs : st.session <;> simp [applyModsSt, hs]

lemma updApplyPhase_commit_fail (env : UpdateEnv) (new_features : List Feature)
    (mods : List (String × Feature × List Diff)) (key_field : String)
    (st3 : LayerSt)
    (hcommit : env.commitOk = false)
    (hadds : ∀ j, j < new_features.length →
      ∃ b, env.addOutcome j = Except.ok b) :
    updApplyPhase env new_features mods key_field st3 =
      (Except.ok ("❌ Errori durante il salvataggio: " ++
        String.intercalate "; " env.commitErrors),
       ⟨st3.fields, st3.data, Option.none, st3.backups⟩) := by
  unfold updApplyPhase
  cases hres : applyAdds env 0 new_features st3 with
  | mk r st4a =>
    have h1 := applyAdds_ok env new_features 0 st3 (by simpa using hadds)
    rw [hres] at h1
    obtain ⟨haf, had, hab, has⟩ := applyAdds_state env new_features 0 st3
    rw [hres] at haf had hab has
    simp only at h1 haf had hab has
    subst h1
    have hm := applyModsSt_state key_field mods st4a
    have h4f : (if mods ≠ [] then applyModsSt key_field mods st4a
        else st4a).fields = st3.fields := by
      split
      · rw [hm.1, haf]
      · exact haf
    have h4d : (if mods ≠ [] then applyModsSt key_field mods st4a
        else st4a).data = st3.data := by
      split
      · rw [hm.2.1, had]
      · exact had
    have h4b : (if mods ≠ [] then applyModsSt key_field mods st4a
        else st4a).backups = st3.backups := by
      split
      · rw [hm.2.2.1, hab]
      · exact hab
    rw [hcommit]
    dsimp only
    rw [commitChangesSt_false]
    dsimp only
    refine Prod.ext rfl ?_
    show rollBackSt _ = _
    rw [show ∀ st : LayerSt, rollBackSt st =
      ⟨st.fields, st.data, Option.none, st.backups⟩ from fun st => rfl]
    rw [h4f, h4d, h4b]

lemma update_edit_phase_commit_fail (env : UpdateEnv)
    (new_features : List Feature)
    (mods : List (String × Feature × List Diff)) (key_field : String)
    (st2 : LayerSt)
    (hstart : env.startEditingOk = true)
    (hcommit : env.commitOk = false)
    (hadds : ∀ j, j < new_features.length →
      ∃ b, env.addOutcome j = Except.ok b) :
    update_edit_phase env new_features mods key_field st2 =
      (Except.ok ("❌ Errori durante il salvataggio: " ++
        String.intercalate "; " env.commitErrors),
       ⟨st2.fields, st2.data, Option.none, st2.backups⟩) := by
  unfold update_edit_phase
  rw [hstart]
  simp only [startEditingSt, if_true]
  rw [updApplyPhase_commit_fail env new_features mods key_field _
    hcommit hadds]

lemma update_after_backup_commit_fail (env : UpdateEnv)
    (new_features : List Feature)
    (mods : List (String × Feature × List Diff)) (key_field : String)
    (st1 : LayerSt)
    (hstart : env.startEditingOk = true)
    (hcommit : env.commitOk = false)
    (hadds : ∀ j, j < new_features.length →
      ∃ b, env.addOutcome j = Except.ok b) :
    update_after_backup env new_features mods key_field st1 =
      (Except.ok ("❌ Errori durante il salvataggio: " ++
        String.intercalate "; " env.commitErrors),
       ⟨st1.fields, preEditData env st1, Option.none, st1.backups⟩) := by
  unfold update_after_backup
  rw [update_edit_phase_commit_fail env new_features mods key_field _ hstart
    hcommit hadds]
  cases hs : st1.session with
  | none => simp [preEditData, hs]
  | some ws =>
    cases hbc : env.baselineCommitOk with
    | false => simp [preEditData, hs, hbc, commitChangesSt]
    | true => simp [preEditData, hs, hbc, commitChangesSt]

lemma updApplyPhase_backups (env : UpdateEnv) (new_features : List Feature)
    (mods : List (String × Feature × List Diff)) (key_field : String)
    (st3 : LayerSt) :
    (updApplyPhase env new_features mods key_field st3).2.backups =
      st3.backups := by
  unfold updApplyPhase
  cases hres : applyAdds env 0 new_features st3 with
  | mk r st4a =>
    obtain ⟨-, -, hab, -⟩ := applyAdds_state env new_features 0 st3
    rw [hres] at hab
    simp only at hab
    cases r with
    | error e => simpa using hab
    | ok u =>
      dsimp only
      have h4b : (if mods ≠ [] then applyModsSt key_field mods st4a
          else st4a).backups = st3.backups := by
        split
        · rw [(applyModsSt_state key_field mods st4a).2.2.1, hab]
        · exact hab
      cases hc : commitChangesSt env.commitOk
          (if mods ≠ [] then applyModsSt key_field mods st4a else st4a) with
      | mk cok st5 =>
        have h5 : st5.backups = st3.backups := by
          have hcs := (commitChangesSt_state env.commitOk
            (if mods ≠ [] then applyModsSt key_field mods st4a else st4a)).2
          rw [hc] at hcs
          simp only at hcs
          rw [hcs, h4b]
        cases cok <;> simpa [rollBackSt] using h5

lemma update_edit_phase_backups (env : UpdateEnv) (new_features : List Feature)
    (mods : List (String × Feature × List Diff)) (key_field : String)
    (st2 : LayerSt) :
    (update_edit_phase env new_features mods key_field st2).2.backups =
      st2.backups := by
  unfold update_edit_phase
  cases hse : startEditingSt env.startEditingOk st2 with
  | mk ok st3 =>
    have h3 : st3.backups = st2.backups := by
      unfold startEditingSt at hse
      split at hse
      · injection hse with h1 h2
        subst h2
        rfl
      · injection hse with h1 h2
        subst h2
        rfl
    cases ok with
    | false => simpa using h3
    | true =>
      dsimp only
      have hb := updApplyPhase_backups env new_features mods key_field st3
      cases hup : updApplyPhase env new_features mods key_field st3 with
      | mk r st4 =>
        rw [hup] at hb
        simp only at hb
        cases r with
        | ok s => simpa using hb.trans h3
        | error e => simpa [rollBackSt] using hb.trans h3

lemma update_after_backup_backups (env : UpdateEnv)
    (new_features : List Feature)
    (mods : List (String × Feature × List Diff)) (key_field : String)
    (st1 : LayerSt) :
    (update_after_backup env new_features mods key_field st1).2.backups =
      st1.backups := by
  unfold update_after_backup
  rw [update_edit_phase_backups]
  split
  · exact (commitChangesSt_state env.baselineCommitOk st1).2
  · rfl

lemma update_edit_phase_fst_ok (env : UpdateEnv) (new_features : List Feature)
    (mods : List (String × Feature × List Diff)) (key_field : String)
    (st2 : LayerSt) :
    ∃ r, (update_edit_phase env new_features mods key_field st2).1 =
      Except.ok r := by
  unfold update_edit_phase
  cases hse : startEditingSt env.startEditingOk st2 with
  | mk ok st3 =>
    cases ok with
    | false => exact ⟨_, rfl⟩
    | true =>
      dsimp only
      cases hup : updApplyPhase env new_features mods key_field st3 with
      | mk r st4 => cases r <;> exact ⟨_, rfl⟩

lemma update_with_snd (env : UpdateEnv) (new_features : List Feature)
    (mods : List (String × Feature × List Diff)) (key_field : String)
    (st : LayerSt) :
    (update_with_qgis_api_only env new_features mods key_field st).2 =
      (update_body env new_features mods key_field st).2 := by
  unfold update_with_qgis_api_only
  cases h : update_body env new_features mods key_field st with
  | mk r st2 => cases r <;> rfl

lemma update_with_fst_ok (env : UpdateEnv) (new_features : List Feature)
    (mods : List (String × Feature × List Diff)) (key_field : String)
    (st : LayerSt) :
    ∃ r, (update_with_qgis_api_only env new_features mods key_field st).1 =
      Except.ok r := by
  unfold update_with_qgis_api_only
  cases h : update_body env new_features mods key_field st with
  | mk r st2 => cases r <;> exact ⟨_, rfl⟩

lemma update_with_fst_eq (env : UpdateEnv) (new_features : List Feature)
    (mods : List (String × Feature × List Diff)) (key_field : String)
    (st : LayerSt) (r : String)
    (h : (update_body env new_features mods key_field st).1 = Except.ok r) :
    (update_with_qgis_api_only env new_features mods key_field st).1 =
      Except.ok r := by
  unfold update_with_qgis_api_only
  cases hb : update_body env new_features mods key_field st with
  | mk r' st2 =>
    rw [hb] at h
    simp only at h
    subst h
    rfl

lemma preEditData_backupSt (env : UpdateEnv) (st : LayerSt) (p : String) :
    preEditData env (backupSt st p) = preEditData env st := by
  cases hs : st.session <;> simp [preEditData, backupSt, hs]

/-- C4: the executor never lets an update-phase fault escape (it always
returns text), and on a session-level commit failure it returns the failure
report containing the storage layer's joined error messages, with the
persisted dataset restored to its pre-edit-session content and the edit
session closed (only the independently-retained backup file is added). -/
theorem update_commit_failure_contract :
    (∀ (env : UpdateEnv) (new_features : List Feature)
       (mods : List (String × Feature × List Diff)) (key_field : String)
       (st : LayerSt), ∃ r st2,
      update_with_qgis_api_only env new_features mods key_field st =
        (Except.ok r, st2)) ∧
    (∀ (env : UpdateEnv) (new_features : List Feature)
       (mods : List (String × Feature × List Diff)) (key_field : String)
       (st : LayerSt),
      env.startEditingOk = true →
      env.commitOk = false →
      (∀ j, j < new_features.length → ∃ b, env.addOutcome j = Except.ok b) →
      ((env.fileExists &&
          pyEndsWith (extractFilePath env.source) ".gpkg") = true →
        env.copyOutcome = Except.ok ()) →
      update_with_qgis_api_only env new_features mods key_field st =
        (Except.ok ("❌ Errori durante il salvataggio: " ++
           String.intercalate "; " env.commitErrors),
         ⟨st.fields, preEditData env st, Option.none,
          st.backups ++
            (if (env.fileExists &&
                pyEndsWith (extractFilePath env.source) ".gpkg") = true then
              [(extractFilePath env.source ++ ".backup_" ++ env.timestamp,
                st.data)]
             else [])⟩)) := by
  constructor
  · intro env new_features mods key_field st
    obtain ⟨r, hr⟩ := update_with_fst_ok env new_features mods key_field st
    exact ⟨r, (update_with_qgis_api_only env new_features mods key_field st).2,
      Prod.ext hr rfl⟩
  · intro env new_features mods key_field st hstart hcommit hadds hcopy
    unfold update_with_qgis_api_only update_body
    by_cases hg : (env.fileExists &&
        pyEndsWith (extractFilePath env.source) ".gpkg") = true
    · rw [if_pos hg, hcopy hg]
      dsimp only
      rw [update_after_backup_commit_fail env new_features mods key_field _
        hstart hcommit hadds]
      rw [if_pos hg, preEditData_backupSt]
      rfl
    · rw [if_neg hg]
      rw [update_after_backup_commit_fail env new_features mods key_field _
        hstart hcommit hadds]
      rw [if_neg hg]
      simp

/-- Concrete environment with a failing commit, used by witnesses. -/
def envFail : UpdateEnv :=
  ⟨"shared.gpkg", true, Except.ok (), true, true, fun _ => Except.ok true,
   false, ["err1", "err2"], "20260101"⟩

/-- Concrete environment with a successful commit, used by witnesses. -/
def envOk : UpdateEnv :=
  ⟨"shared.gpkg", true, Except.ok (), true, true, fun _ => Except.ok true,
   true, [], "20260101"⟩

/-- Concrete shared-layer state used by witnesses. -/
def st0 : LayerSt := ⟨["fuuid", "name"], [featA], Option.none, []⟩

/-- Witness for C4 at a concrete input. -/
theorem update_commit_failure_contract_witness :
    update_with_qgis_api_only envFail [featB] [] "fuuid" st0 =
      (Except.ok ("❌ Errori durante il salvataggio: " ++
         String.intercalate "; " envFail.commitErrors),
       ⟨st0.fields, preEditData envFail st0, Option.none,
        st0.backups ++
          (if (envFail.fileExists &&
              pyEndsWith (extractFilePath envFail.source) ".gpkg") = true then
            [(extractFilePath envFail.source ++ ".backup_" ++
              envFail.timestamp, st0.data)]
           else [])⟩) :=
  update_commit_failure_contract.2 envFail [featB] [] "fuuid" st0 rfl rfl
    (fun _ _ => ⟨true, rfl⟩) (fun _ => rfl)

/-- C5: when the layer source is an existing `.gpkg` file and the copy
succeeds, a backup entry at `<path>.backup_<timestamp>` carrying a verbatim
copy of the pre-mutation rows is the single backup created by the call;
when the source is not an existing `.gpkg` file the backup is skipped and
the call still returns text without error. -/
theorem update_backup_contract :
    (∀ (env : UpdateEnv) (new_features : List Feature)
       (mods : List (String × Feature × List Diff)) (key_field : String)
       (st : LayerSt),
      env.fileExists = true →
      pyEndsWith (extractFilePath env.source) ".gpkg" = true →
      env.copyOutcome = Except.ok () →
      (update_with_qgis_api_only env new_features mods key_field st).2.backups =
        st.backups ++
          [(extractFilePath env.source ++ ".backup_" ++ env.timestamp,
            st.data)]) ∧
    (∀ (env : UpdateEnv) (new_features : List Feature)
       (mods : List (String × Feature × List Diff)) (key_field : String)
       (st : LayerSt),
      (env.fileExists &&
        pyEndsWith (extractFilePath env.source) ".gpkg") = false →
      (update_with_qgis_api_only env new_features mods key_field st).2.backups =
          st.backups ∧
        ∃ r, (update_with_qgis_api_only env new_features mods key_field st).1 =
          Except.ok r) := by
  constructor
  · intro env new_features mods key_field st hfe hgp hco
    rw [update_with_snd]
    unfold update_body
    rw [if_pos (by rw [hfe, hgp]; rfl), hco]
    dsimp only
    rw [update_after_backup_backups]
    rfl
  · intro env new_features mods key_field st hg
    refine ⟨?_, update_with_fst_ok env new_features mods key_field st⟩
    rw [update_with_snd]
    unfold update_body
    rw [if_neg (by rw [hg]; simp)]
    exact update_after_backup_backups env new_features mods key_field st

/-- Witness for C5 at a concrete input. -/
theorem update_backup_contract_witness :
    (update_with_qgis_api_only envFail [featB] [] "fuuid" st0).2.backups =
      st0.backups ++
        [(extractFilePath envFail.source ++ ".backup_" ++ envFail.timestamp,
          st0.data)] :=
  update_backup_contract.1 envFail [featB] [] "fuuid" st0 rfl (by decide) rfl

lemma updApplyPhase_commit_ok (env : UpdateEnv) (new_features : List Feature)
    (mods : List (String × Feature × List Diff)) (key_field : String)
    (st3 : LayerSt)
    (hses : st3.session.isSome = true)
    (hcommit : env.commitOk = true)
    (hadds : ∀ j, j < new_features.length →
      ∃ b, env.addOutcome j = Except.ok b)
    (hnew : new_features ≠ []) (hmods : mods ≠ []) :
    ∃ st5, updApplyPhase env new_features mods key_field st3 =
      (Except.ok (String.intercalate "\n"
        ["✅ Aggiunti " ++ toString new_features.length ++ " nuovi record",
         "✅ Aggiornati " ++ toString mods.length ++ " record",
         "🎉 AGGIORNAMENTO COMPLETATO CON SUCCESSO!"]), st5) := by
  unfold updApplyPhase
  cases hres : applyAdds env 0 new_features st3 with
  | mk r st4a =>
    have h1 := applyAdds_ok env new_features 0 st3 (by simpa using hadds)
    rw [hres] at h1
    simp only at h1
    subst h1
    obtain ⟨-, -, -, has⟩ := applyAdds_state env new_features 0 st3
    rw [hres] at has
    simp only at has
    dsimp only
    have h4s : (if mods ≠ [] then applyModsSt key_field mods st4a
        else st4a).session.isSome = true := by
      rw [if_pos hmods, (applyModsSt_state key_field mods st4a).2.2.2, has,
        hses]
    obtain ⟨ws, hws⟩ := Option.isSome_iff_exists.1 h4s
    rw [hcommit]
    unfold commitChangesSt
    rw [hws]
    dsimp only
    rw [if_pos rfl]
    dsimp only
    rw [if_pos hnew, if_pos hmods]
    exact ⟨_, rfl⟩

lemma update_edit_phase_commit_ok (env : UpdateEnv)
    (new_features : List Feature)
    (mods : List (String × Feature × List Diff)) (key_field : String)
    (st2 : LayerSt)
    (hstart : env.startEditingOk = true)
    (hcommit : env.commitOk = true)
    (hadds : ∀ j, j < new_features.length →
      ∃ b, env.addOutcome j = Except.ok b)
    (hnew : new_features ≠ []) (hmods : mods ≠ []) :
    ∃ st5, update_edit_phase env new_features mods key_field st2 =
      (Except.ok (String.intercalate "\n"
        ["✅ Aggiunti " ++ toString new_features.length ++ " nuovi record",
         "✅ Aggiornati " ++ toString mods.length ++ " record",
         "🎉 AGGIORNAMENTO COMPLETATO CON SUCCESSO!"]), st5) := by
  unfold update_edit_phase
  rw [hstart]
  simp only [startEditingSt, if_true]
  obtain ⟨st5, h5⟩ := updApplyPhase_commit_ok env new_features mods key_field
    ⟨st2.fields, st2.data, some (st2.session.getD st2.data), st2.backups⟩
    (by simp) hcommit hadds hnew hmods
  rw [h5]
  exact ⟨st5, rfl⟩

/-- C9: when the run reaches a successful commit, the returned report
counts the full lengths of the input new-record and modified-entry lists,
regardless of individual `addFeature` outcomes and of whether any modified
key was actually re-resolved. -/
theorem update_success_report_counts (env : UpdateEnv)
    (new_features : List Feature)
    (mods : List (String × Feature × List Diff)) (key_field : String)
    (st : LayerSt)
    (hstart : env.startEditingOk = true)
    (hcommit : env.commitOk = true)
    (hadds : ∀ j, j < new_features.length →
      ∃ b, env.addOutcome j = Except.ok b)
    (hcopy : (env.fileExists &&
        pyEndsWith (extractFilePath env.source) ".gpkg") = true →
      env.copyOutcome = Except.ok ())
    (hnew : new_features ≠ []) (hmods : mods ≠ []) :
    (update_with_qgis_api_only env new_features mods key_field st).1 =
      Except.ok (String.intercalate "\n"
        ["✅ Aggiunti " ++ toString new_features.length ++ " nuovi record",
         "✅ Aggiornati " ++ toString mods.length ++ " record",
         "🎉 AGGIORNAMENTO COMPLETATO CON SUCCESSO!"]) := by
  apply update_with_fst_eq
  unfold update_body
  by_cases hg : (env.fileExists &&
      pyEndsWith (extractFilePath env.source) ".gpkg") = true
  · rw [if_pos hg, hcopy hg]
    dsimp only
    unfold update_after_backup
    obtain ⟨st5, h5⟩ := update_edit_phase_commit_ok env new_features mods
      key_field
      (if (backupSt st (extractFilePath env.source ++ ".backup_" ++
          env.timestamp)).session.isSome then
        (commitChangesSt env.baselineCommitOk
          (backupSt st (extractFilePath env.source ++ ".backup_" ++
            env.timestamp))).2
       else backupSt st (extractFilePath env.source ++ ".backup_" ++
        env.timestamp))
      hstart hcommit hadds hnew hmods
    rw [h5]
  · rw [if_neg hg]
    unfold update_after_backup
    obtain ⟨st5, h5⟩ := update_edit_phase_commit_ok env new_features mods
      key_field
      (if st.session.isSome then
        (commitChangesSt env.baselineCommitOk st).2
       else st)
      hstart hcommit hadds hnew hmods
    rw [h5]

/-- Witness for C9 at a concrete input. -/
theorem update_success_report_counts_witness :
    (update_with_qgis_api_only envOk [featB]
        [("A", featA, [Diff.geometryChanged])] "fuuid" st0).1 =
      Except.ok (String.intercalate "\n"
        ["✅ Aggiunti " ++ toString ([featB].length) ++ " nuovi record",
         "✅ Aggiornati " ++
           toString ([("A", featA, [Diff.geometryChanged])].length) ++
           " record",
         "🎉 AGGIORNAMENTO COMPLETATO CON SUCCESSO!"]) :=
  update_success_report_counts envOk [featB]
    [("A", featA, [Diff.geometryChanged])] "fuuid" st0 rfl rfl
    (fun _ _ => ⟨true, rfl⟩) (fun _ => rfl) (by simp) (by simp)

/-! ### The run pipeline (claims C6, C8) -/

/-- C6: in preview mode, and likewise when the classification finds no new
and no modified records, the run returns exactly the analysis report and
the shared layer untouched — the update executor is never invoked. -/
theorem processAlgorithm_preview_no_mutation (env : UpdateEnv)
    (shared user : LayerSt) (key_field : String) (preview_only : Bool)
    (hks : key_field ∈ shared.fields) (hku : key_field ∈ user.fields)
    (h : preview_only = true ∨
      ((analyze_differences shared.data user.data key_field
          env.timestamp).1 = [] ∧
       (analyze_differences shared.data user.data key_field
          env.timestamp).2.1 = [])) :
    processAlgorithm env (some shared) (some user) key_field preview_only =
      Except.ok
        ((analyze_differences shared.data user.data key_field
            env.timestamp).2.2,
         shared) := by
  simp only [processAlgorithm]
  rw [if_neg (not_not_intro hks), if_neg (not_not_intro hku)]
  rw [if_neg ?_]
  rcases h with hp | ⟨h1, h2⟩
  · rintro ⟨hnp, -⟩
    rw [hp] at hnp
    exact hnp rfl
  · rintro ⟨-, hor | hor⟩
    · exact hor h1
    · exact hor h2

/-- Witness for C6 at a concrete input. -/
theorem processAlgorithm_preview_no_mutation_witness :
    processAlgorithm envOk (some st0) (some st0) "fuuid" true =
      Except.ok
        ((analyze_differences st0.data st0.data "fuuid"
            envOk.timestamp).2.2,
         st0) :=
  processAlgorithm_preview_no_mutation envOk st0 st0 "fuuid" true
    (by decide) (by decide) (Or.inl rfl)

/-- C8: an absent dataset handle or a key field missing from either schema
makes the run raise the corresponding configuration error before any
indexing, classification or mutation — the caller receives the error and no
report. -/
theorem processAlgorithm_config_errors :
    (∀ (env : UpdateEnv) (user : Option LayerSt) (key_field : String)
       (preview : Bool),
      processAlgorithm env Option.none user key_field preview =
        Except.error "Layer non validi") ∧
    (∀ (env : UpdateEnv) (shared : LayerSt) (key_field : String)
       (preview : Bool),
      processAlgorithm env (some shared) Option.none key_field preview =
        Except.error "Layer non validi") ∧
    (∀ (env : UpdateEnv) (shared user : LayerSt) (key_field : String)
       (preview : Bool),
      key_field ∉ shared.fields →
      processAlgorithm env (some shared) (some user) key_field preview =
        Except.error ("Campo chiave \"" ++ key_field ++
          "\" non trovato nel layer condiviso")) ∧
    (∀ (env : UpdateEnv) (shared user : LayerSt) (key_field : String)
       (preview : Bool),
      key_field ∈ shared.fields → key_field ∉ user.fields →
      processAlgorithm env (some shared) (some user) key_field preview =
        Except.error ("Campo chiave \"" ++ key_field ++
          "\" non trovato nel layer utente")) := by
  refine ⟨?_, ?_, ?_, ?_⟩
  · intro env user key_field preview
    cases user <;> rfl
  · intro env shared key_field preview
    rfl
  · intro env shared user key_field preview hks
    simp only [processAlgorithm]
    rw [if_pos hks]
  · intro env shared user key_field preview hks hku
    simp only [processAlgorithm]
    rw [if_neg (not_not_intro hks), if_pos hku]

/-- Witness for C8 at a concrete input. -/
theorem processAlgorithm_config_errors_witness :
    processAlgorithm envOk (some st0) (some st0) "missing" true =
      Except.error ("Campo chiave \"" ++ "missing" ++
        "\" non trovato nel layer condiviso") :=
  processAlgorithm_config_errors.2.2.1 envOk st0 st0 "missing" true
    (by decide)

end GeoPkg
